import Mathlib

/-!
Shallow embedding of the cost-aggregation and scatter-gather core of the
multi-cloud FinOps MCP server (Python sources under `clouds/`).

Conventions of the embedding:
* Python `str` is modelled as `List Char` (abbreviated `Str`).
* Python `float` amounts are modelled as exact rationals (`ℚ`); Python's
  `round(x, 2)` is modelled as round-half-to-even at two decimals
  (`pyRound2`), which is Python's documented rounding mode.
* Python exceptions are modelled with `Except`: a function that can raise
  an uncaught exception returns `Except Str α`; a `try/except` block is a
  `match` on the `Except` value of the guarded code.
* Provider SDK calls (boto3 / google client / BigQuery) are modelled as
  explicit outcome parameters: each embedded operation takes the outcome
  a provider call would have produced (success data, or a particular
  exception) and computes exactly what the Python code computes from it.
* `datetime.date` is modelled as a `Date` record with proleptic-Gregorian
  calendar rules; `timedelta(days = k)` subtraction is `k`-fold calendar
  decrement.
-/

abbrev Str := List Char

/-- Character-list split on a separator, mirroring Python `str.split(sep)`
for a one-character separator. -/
def splitOnChar (sep : Char) : List Char → List (List Char)
  | [] => [[]]
  | c :: rest =>
    let r := splitOnChar sep rest
    if c = sep then [] :: r
    else (c :: r.headD []) :: r.tail

/-- Numeric value of a digit string, mirroring `int()` on an all-digit string. -/
def natOfDigits (cs : List Char) : Nat :=
  cs.foldl (fun a c => a * 10 + (c.toNat - '0'.toNat)) 0

/-- Calendar date, modelling Python `datetime.date`. -/
structure Date where
  year : Int
  month : Nat
  day : Nat
deriving DecidableEq, Repr

/-- Gregorian leap-year rule used by `datetime.date`. -/
def isLeap (y : Int) : Bool :=
  y % 4 == 0 && (y % 100 != 0 || y % 400 == 0)

/-- Number of days in a month of a given year (Gregorian calendar). -/
def daysInMonth (y : Int) (m : Nat) : Nat :=
  if m = 2 then (if isLeap y then 29 else 28)
  else if m = 4 ∨ m = 6 ∨ m = 9 ∨ m = 11 then 30
  else 31

/-- Calendar-valid date: month in 1..12 and day in range for the month. -/
def ValidDate (d : Date) : Prop :=
  1 ≤ d.month ∧ d.month ≤ 12 ∧ 1 ≤ d.day ∧ d.day ≤ daysInMonth d.year d.month

instance (d : Date) : Decidable (ValidDate d) := by
  unfold ValidDate; infer_instance

/-- Previous calendar day, the single step of `date - timedelta(days=1)`. -/
def predDate (d : Date) : Date :=
  if 1 < d.day then ⟨d.year, d.month, d.day - 1⟩
  else if 1 < d.month then ⟨d.year, d.month - 1, daysInMonth d.year (d.month - 1)⟩
  else ⟨d.year - 1, 12, 31⟩

/-- Next calendar day, the single step of `date + timedelta(days=1)`. -/
def succDate (d : Date) : Date :=
  if d.day < daysInMonth d.year d.month then ⟨d.year, d.month, d.day + 1⟩
  else if d.month < 12 then ⟨d.year, d.month + 1, 1⟩
  else ⟨d.year + 1, 1, 1⟩

/-- Date arithmetic `d - timedelta(days = k)` for a possibly negative `k`. -/
def subDaysInt (d : Date) (k : Int) : Date :=
  if 0 ≤ k then predDate^[k.toNat] d else succDate^[(-k).toNat] d

/-- Month field of CPython strptime, the `%m` regex alternatives
`1[0-2] | 0[1-9] | [1-9]` (no space padding): the month value, or `none`
when the field does not match. -/
def monthOfField (ms : Str) : Option Nat :=
  match ms with
  | [c] => if '1' ≤ c ∧ c ≤ '9' then some (c.toNat - '0'.toNat) else none
  | [c₁, c₂] =>
    if c₁ = '1' ∧ '0' ≤ c₂ ∧ c₂ ≤ '2' then some (10 + (c₂.toNat - '0'.toNat))
    else if c₁ = '0' ∧ '1' ≤ c₂ ∧ c₂ ≤ '9' then some (c₂.toNat - '0'.toNat)
    else none
  | _ => none

/-- Day field of CPython strptime, the `%d` regex alternatives
`3[01] | [12]\d | 0[1-9] | [1-9] | [SPACE][1-9]` (space-padded single
digits are accepted): the day value, or `none` when the field does not
match. -/
def dayOfField (ds : Str) : Option Nat :=
  match ds with
  | [c] => if '1' ≤ c ∧ c ≤ '9' then some (c.toNat - '0'.toNat) else none
  | [c₁, c₂] =>
    if c₁ = '3' ∧ '0' ≤ c₂ ∧ c₂ ≤ '1' then some (30 + (c₂.toNat - '0'.toNat))
    else if '1' ≤ c₁ ∧ c₁ ≤ '2' ∧ c₂.isDigit then
      some ((c₁.toNat - '0'.toNat) * 10 + (c₂.toNat - '0'.toNat))
    else if c₁ = '0' ∧ '1' ≤ c₂ ∧ c₂ ≤ '9' then some (c₂.toNat - '0'.toNat)
    else if c₁ = ' ' ∧ '1' ≤ c₂ ∧ c₂ ≤ '9' then some (c₂.toNat - '0'.toNat)
    else none
  | _ => none

/-- Parse of a date string, modelling
`datetime.strptime(s, "%Y-%m-%d").date()` with CPython field regexes:
`%Y` matches exactly four digits, `%m` matches `1[0-2]|0[1-9]|[1-9]`,
`%d` matches `3[01]|[12]\d|0[1-9]|[1-9]|[SPACE][1-9]`, the whole string
must be consumed (here: exactly three `-`-separated fields), and the
`date()` constructor then requires year at least 1 and the day to exist
in the month; otherwise `ValueError` is raised. -/
def parseDate (s : Str) : Except Str Date :=
  match splitOnChar '-' s with
  | [ys, ms, ds] =>
    if ys.length = 4 ∧ ys.all Char.isDigit then
      match monthOfField ms, dayOfField ds with
      | some m, some d =>
        let y : Nat := natOfDigits ys
        if 1 ≤ y ∧ d ≤ daysInMonth (y : Int) m then
          .ok ⟨(y : Int), m, d⟩
        else .error ("ValueError: day is out of range for month".toList)
      | _, _ =>
        .error ("ValueError: time data does not match format %Y-%m-%d".toList)
    else .error ("ValueError: time data does not match format %Y-%m-%d".toList)
  | _ => .error ("ValueError: time data does not match format %Y-%m-%d".toList)

/-- Python truthiness of an optional string argument (`None` and `""` are falsy). -/
def truthyStr : Option Str → Bool
  | none => false
  | some s => !s.isEmpty

/-- Python truthiness of an optional integer argument (`None` and `0` are falsy). -/
def truthyInt : Option Int → Bool
  | none => false
  | some n => n != 0

/-- Date-range resolution block shared verbatim by `aws/tools.py get_cost`
(lines 54-62) and `gcp/utils.py get_gcp_cost_breakdown` (lines 113-121):
if both ISO strings are truthy, parse both with `strptime` (a `ValueError`
propagates as `.error`); elif `time_range_days` is truthy, take the window
`[today - (time_range_days - 1) days, today]`; else first of the current
month through today. -/
def resolveDates (today : Date) (timeRangeDays : Option Int)
    (startIso endIso : Option Str) : Except Str (Date × Date) :=
  if truthyStr startIso && truthyStr endIso then do
    let s ← parseDate (startIso.getD [])
    let e ← parseDate (endIso.getD [])
    .ok (s, e)
  else if truthyInt timeRangeDays then
    .ok (subDaysInt today ((timeRangeDays.getD 0) - 1), today)
  else
    .ok (⟨today.year, today.month, 1⟩, today)

deriving instance DecidableEq for Except

/-- Result record built per stopped instance by `get_stopped_ec2`
(`aws/utils.py` lines 21-29): instance fields plus the region. -/
structure StoppedEc2Item where
  instanceId : Str
  instanceType : Str
  region : Str
  launchTime : Str
  tags : List (Str × Str)
deriving DecidableEq, Repr

/-- Fields read from one EC2 instance record of `describe_instances`. -/
structure Ec2Instance where
  instanceId : Str
  instanceType : Str
  launchTime : Str
  tags : List (Str × Str)
deriving DecidableEq, Repr

/-- Fields read from one address record of `describe_addresses`;
`instanceId = none` models `"InstanceId" not in address`. -/
structure EipAddress where
  publicIp : Str
  allocationId : Str
  instanceId : Option Str
deriving DecidableEq, Repr

/-- Result record built per unassociated address by `get_unassociated_eips`
(`aws/utils.py` lines 77-83). -/
structure EipItem where
  publicIp : Str
  allocationId : Str
  region : Str
deriving DecidableEq, Repr

/-- Error entry `f"\x7bregion\x7d: \x7bstr(e)\x7d"` appended on a per-region
exception in the AWS audit helpers. -/
def regionErrEntry (region msg : Str) : Str :=
  region ++ ": ".toList ++ msg

/-- Loop body shared by the per-region AWS audit helpers (`aws/utils.py`
`get_stopped_ec2`, `get_unattached_ebs_volumes`, `get_unassociated_eips`):
run the per-region operation inside `try`, on success append its items to
`results`, on exception append `regionErrEntry` to `errors`. -/
def regionStep (op : Str → Except Str (List α)) (acc : List α × List Str)
    (region : Str) : List α × List Str :=
  match op region with
  | .ok items => (acc.1 ++ items, acc.2)
  | .error e => (acc.1, acc.2 ++ [regionErrEntry region e])

/-- Scatter-gather skeleton of the AWS audit helpers: iterate regions in
caller order starting from `results = []`, `errors = []`. -/
def regionScatter (op : Str → Except Str (List α)) (regions : List Str) :
    List α × List Str :=
  regions.foldl (regionStep op) ([], [])

/-- Embedding of `get_stopped_ec2(session, regions)` (`aws/utils.py` 6-33).
`describe region` is the outcome of the `describe_instances` call in that
region (already server-filtered to stopped instances); the body turns each
record into a `StoppedEc2Item` carrying the region. -/
def get_stopped_ec2 (describe : Str → Except Str (List Ec2Instance))
    (regions : List Str) : List StoppedEc2Item × List Str :=
  regionScatter
    (fun region => (describe region).map (fun instances =>
      instances.map (fun i =>
        ⟨i.instanceId, i.instanceType, region, i.launchTime, i.tags⟩)))
    regions

/-- Embedding of `get_unassociated_eips(session, regions)` (`aws/utils.py`
64-87): per region, keep only the addresses with no `InstanceId` key. -/
def get_unassociated_eips (describe : Str → Except Str (List EipAddress))
    (regions : List Str) : List EipItem × List Str :=
  regionScatter
    (fun region => (describe region).map (fun addrs =>
      (addrs.filter (fun a => a.instanceId.isNone)).map (fun a =>
        ⟨a.publicIp, a.allocationId, region⟩)))
    regions

/-- Cost Explorer filter expression: the possible shapes of the `Filter`
dict built by `cost_filters` (`aws/utils.py` 113-159). -/
inductive CEFilter where
  | tagLeaf (key : Str) (values : List Str)
  | dimLeaf (key : Str) (values : List Str)
  | and (children : List CEFilter)
deriving Repr

/-- Split on the FIRST `=`, mirroring `s.split("=", 1)` guarded by
`"=" in s`: `none` when the string has no `=`. -/
def splitFirstEq : List Char → Option (Str × Str)
  | [] => none
  | c :: rest =>
    if c = '=' then some ([], rest)
    else match splitFirstEq rest with
      | some (k, v) => some (c :: k, v)
      | none => none

/-- Key/value pairs accumulated from a list of `"K=V"` strings; entries
without `=` are dropped (the two accumulation loops of `cost_filters`). -/
def kvPairs (xs : List Str) : List (Str × Str) :=
  xs.filterMap splitFirstEq

/-- Tag-category filter contribution: nothing when no parsed entries, a
bare `Tags` leaf for one entry, an `And` of `Tags` leaves otherwise. -/
def tagFilterListOf : List (Str × Str) → List CEFilter
  | [] => []
  | [p] => [.tagLeaf p.1 [p.2]]
  | ps => [.and (ps.map (fun p => .tagLeaf p.1 [p.2]))]

/-- Dimension-category filter contribution, same shape rule as tags. -/
def dimFilterListOf : List (Str × Str) → List CEFilter
  | [] => []
  | [p] => [.dimLeaf p.1 [p.2]]
  | ps => [.and (ps.map (fun p => .dimLeaf p.1 [p.2]))]

/-- Embedding of `cost_filters(tags, dimensions)` (`aws/utils.py` 113-159):
the returned kwargs contain a `Filter` key (`some`) or not (`none`). One
category filter is used bare; two are combined under a top-level `And`. -/
def cost_filters (tags dims : Option (List Str)) : Option CEFilter :=
  let filters := tagFilterListOf (kvPairs (tags.getD []))
      ++ dimFilterListOf (kvPairs (dims.getD []))
  match filters with
  | [] => none
  | [f] => some f
  | fs => some (.and fs)

/-- Python-dict update `table[key] = table.get(key, 0.0) + v` on an
insertion-ordered association list (the representation of a `dict` /
`defaultdict(float)`): first occurrence inserts at the end, later
occurrences add in place. -/
def insertAdd : List (Str × ℚ) → Str → ℚ → List (Str × ℚ)
  | [], k, v => [(k, v)]
  | (k₁, v₁) :: rest, k, v =>
    if k₁ = k then (k₁, v₁ + v) :: rest
    else (k₁, v₁) :: insertAdd rest k v

/-- Cost-accumulation fold shared by `aws/tools.py get_cost` (lines 91-96,
`services[key] += amount`) and `gcp/utils.py get_gcp_cost_breakdown`
(line 195, `cost_by_service.get(service, 0.0) + cost`): raw amounts are
summed with no intermediate rounding. -/
def aggFold (rows : List (Str × ℚ)) : List (Str × ℚ) :=
  rows.foldl (fun acc r => insertAdd acc r.1 r.2) []

/-- Lookup in an insertion-ordered association list (dict subscript). -/
def lookupQ : List (Str × ℚ) → Str → Option ℚ
  | [], _ => none
  | (k₁, v) :: rest, k => if k₁ = k then some v else lookupQ rest k

/-- Stable insertion of one entry into a cost-descending list: the new
(originally earlier) entry goes before every entry of equal cost. -/
def insDesc (x : Str × ℚ) : List (Str × ℚ) → List (Str × ℚ)
  | [] => [x]
  | y :: ys => if y.2 ≤ x.2 then x :: y :: ys else y :: insDesc x ys

/-- Stable sort by descending cost, modelling Python
`sorted(items, key=lambda x: x[1], reverse=True)` (a stable sort that
keeps equal-cost entries in their original dict insertion order). -/
def sortDesc : List (Str × ℚ) → List (Str × ℚ)
  | [] => []
  | x :: xs => insDesc x (sortDesc xs)

/-- Banker's rounding of a rational to an integer (round half to even),
the rounding mode of Python 3 `round`. -/
def roundHalfEven (x : ℚ) : ℤ :=
  let f := ⌊x⌋
  if x - f < 1/2 then f
  else if (1 : ℚ)/2 < x - f then f + 1
  else if f % 2 = 0 then f else f + 1

/-- Python `round(x, 2)` on an exact rational amount. -/
def pyRound2 (x : ℚ) : ℚ := (roundHalfEven (x * 100) : ℚ) / 100

/-- Externally visible AWS `cost_by_service` table of `get_cost` (line
104-106): `dict(sorted(services.items(), key=..., reverse=True))` over the
accumulated sums — sorted, and NOT rounded. -/
def awsCostByService (rows : List (Str × ℚ)) : List (Str × ℚ) :=
  sortDesc (aggFold rows)

/-- Externally visible GCP `cost_by_service` dict of
`get_gcp_cost_breakdown` (line 204): each accumulated sum rounded to two
decimals at presentation, insertion order kept. -/
def gcpCostByService (rows : List (Str × ℚ)) : List (Str × ℚ) :=
  (aggFold rows).map (fun p => (p.1, pyRound2 p.2))

/-- Outcome of `get_boto3_session` (`aws/client.py` 11-34): on success a
session handle and the STS account id, on `BotoCoreError`/`ClientError`
the triple `(None, None, str(e))`. The `sts` argument is the outcome of
the credential lookup plus `sts.get_caller_identity()["Account"]`. -/
def get_boto3_session (sts : Except Str Str) :
    Option Unit × Option Str × Option Str :=
  match sts with
  | .ok acct => (some (), some acct, none)
  | .error e => (none, none, some e)

/-- Attribute access `session.client(...)` on the possibly-`None` session
returned by `get_boto3_session`: raises `AttributeError` when `None`. -/
def clientOnSession (sess : Option Unit) : Except Str Unit :=
  match sess with
  | none => .error "AttributeError: NoneType object has no attribute client".toList
  | some _ => .ok ()

/-- Provider-call outcomes consumed by `aws/tools.py get_cost`: the STS /
session outcome and the two `get_cost_and_usage` responses (first the
ungrouped daily totals, then the grouped `(key, amount)` rows). -/
structure AwsCostEnv where
  today : Date
  sts : Except Str Str
  totalDaily : Except Str (List ℚ)
  grouped : Except Str (List (Str × ℚ))

/-- Shape of the dict returned by `aws/tools.py get_cost` (lines 98-107). -/
structure AwsCostResult where
  profile : Str
  accountId : Str
  startDate : Date
  endDate : Date
  totalCost : ℚ
  costByService : List (Str × ℚ)

/-- Embedding of the public operation `get_cost` (`aws/tools.py` 15-107).
The body has NO `try/except`: the `.error`s of session attribute access,
of `strptime` on malformed dates, and of either Cost Explorer call all
propagate to the caller. -/
def awsGetCost (env : AwsCostEnv) (profile : Str) (timeRangeDays : Option Int)
    (startIso endIso : Option Str) (tags dims : Option (List Str)) :
    Except Str AwsCostResult := do
  let (sess, _, _) := get_boto3_session env.sts
  let _ ← clientOnSession sess
  let (ds, de) ← resolveDates env.today timeRangeDays startIso endIso
  let _ := cost_filters tags dims
  let daily ← env.totalDaily
  let periodTotal := daily.foldl (· + ·) 0
  let rows ← env.grouped
  let acct ← env.sts
  .ok ⟨profile, acct, ds, de, pyRound2 periodTotal, awsCostByService rows⟩

/-- Fields read from one EBS volume record of `describe_volumes`. -/
structure EbsVolume where
  volumeId : Str
  size : Int
  tags : List (Str × Str)
deriving DecidableEq, Repr

/-- Result record built per unattached volume by
`get_unattached_ebs_volumes` (`aws/utils.py` 50-57). -/
structure EbsItem where
  volumeId : Str
  size : Int
  region : Str
  tags : List (Str × Str)
deriving DecidableEq, Repr

/-- Embedding of `get_unattached_ebs_volumes(session, regions)`
(`aws/utils.py` 36-61), same per-region scatter skeleton. -/
def get_unattached_ebs_volumes (describe : Str → Except Str (List EbsVolume))
    (regions : List Str) : List EbsItem × List Str :=
  regionScatter
    (fun region => (describe region).map (fun vols =>
      vols.map (fun v => ⟨v.volumeId, v.size, region, v.tags⟩)))
    regions

/-- Budget record extracted by `aws/utils.py get_budget_data` (97-106). -/
structure BudgetStatus where
  name : Str
  limit : Option Str
  unit : Option Str
  timeUnit : Option Str
deriving DecidableEq, Repr

/-- Embedding of `get_budget_data` (`aws/utils.py` 90-110): the whole body
is inside `try/except Exception`, so any failure is returned as
`([], str(e))`, never raised. -/
def get_budget_data (resp : Except Str (List BudgetStatus)) :
    List BudgetStatus × Str :=
  match resp with
  | .ok bs => (bs, [])
  | .error e => ([], e)

/-- Per-region describe under a possibly-`None` session: inside each
region's `try` block, `session.client(...)` on `None` raises
`AttributeError`, which that region's `except` catches. -/
def sessionDescribe (sess : Option Unit) (f : Str → Except Str (List α)) :
    Str → Except Str (List α) :=
  fun region =>
    match sess with
    | none => .error "AttributeError: NoneType object has no attribute client".toList
    | some _ => f region

/-- Provider-call outcomes consumed by `aws/tools.py run_finops_audit`. -/
structure AwsAuditEnv where
  sts : Except Str Str
  ec2Describe : Str → Except Str (List Ec2Instance)
  ebsDescribe : Str → Except Str (List EbsVolume)
  eipDescribe : Str → Except Str (List EipAddress)
  budgets : Except Str (List BudgetStatus)

/-- Shape of the dict returned by `run_finops_audit` (`aws/tools.py`
137-152): `audit` findings and `errors` per category. -/
structure AwsAuditResult where
  profile : Str
  accountId : Str
  stoppedEc2 : List StoppedEc2Item
  unattachedEbs : List EbsItem
  unassociatedEips : List EipItem
  budgetStatus : List BudgetStatus
  ec2Errors : List Str
  ebsErrors : List Str
  eipErrors : List Str
  budgetsError : Str

/-- Embedding of the public operation `run_finops_audit` (`aws/tools.py`
110-152): no `try/except` around the body, so `session.client("sts")` on a
`None` session raises to the caller; per-region failures inside the four
helpers stay embedded in the `errors` mapping. -/
def run_finops_audit (env : AwsAuditEnv) (profile : Str) (regions : List Str) :
    Except Str AwsAuditResult := do
  let (sess, _, _) := get_boto3_session env.sts
  let _ ← clientOnSession sess
  let accountId ← env.sts
  let (ec2Data, ec2Err) := get_stopped_ec2 (sessionDescribe sess env.ec2Describe) regions
  let (ebsData, ebsErr) := get_unattached_ebs_volumes (sessionDescribe sess env.ebsDescribe) regions
  let (eipData, eipErr) := get_unassociated_eips (sessionDescribe sess env.eipDescribe) regions
  let (budgets, budgetsErr) := get_budget_data env.budgets
  .ok ⟨profile, accountId, ec2Data, ebsData, eipData, budgets,
       ec2Err, ebsErr, eipErr, budgetsErr⟩

/-- Outcome of a googleapiclient call sequence that may raise `HttpError`
part-way through pagination (`httpError` keeps the records collected
before the failure) or raise some other exception class that the
surrounding `except HttpError` clause does NOT catch. -/
inductive GcpListOutcome (α : Type) where
  | ok (records : List α)
  | httpError (collected : List α) (msg : Str)
  | otherExc (msg : Str)

/-- Fields read from one compute instance record in
`gcp/utils.py get_stopped_vms`. -/
structure GcpInstance where
  id : Str
  name : Str
  zone : Str
  machineType : Str
  creationTimestamp : Str
  status : Str
  tags : List Str
deriving DecidableEq, Repr

/-- Result record built per TERMINATED instance (`gcp/utils.py` 24-35);
`machineType` keeps only the last `/`-separated component. -/
structure StoppedVmItem where
  id : Str
  name : Str
  zone : Str
  machineType : Str
  creationTimestamp : Str
  tags : List Str
deriving DecidableEq, Repr

/-- Last component of a `/`-separated path, mirroring `s.split("/")[-1]`. -/
def lastSlashComponent (s : Str) : Str :=
  (splitOnChar '/' s).getLastD []

/-- Embedding of `get_stopped_vms(credentials, project_id)` (`gcp/utils.py`
11-41): one `try` wraps the whole pagination loop and catches ONLY
`HttpError` (appending `str(e)` to `errors` and keeping the results
collected so far); any other exception propagates to the caller. -/
def get_stopped_vms (listing : GcpListOutcome GcpInstance) :
    Except Str (List StoppedVmItem × List Str) :=
  let build := fun (records : List GcpInstance) =>
    (records.filter (fun i => i.status = "TERMINATED".toList)).map (fun i =>
      (⟨i.id, i.name, i.zone, lastSlashComponent i.machineType,
        i.creationTimestamp, i.tags⟩ : StoppedVmItem))
  match listing with
  | .ok records => .ok (build records, [])
  | .httpError collected msg => .ok (build collected, [msg])
  | .otherExc msg => .error msg

/-- Fields read from one disk record in `gcp/utils.py get_unattached_disks`. -/
structure GcpDisk where
  id : Str
  name : Str
  sizeGb : Str
  zone : Str
  creationTimestamp : Str
  labels : List (Str × Str)
  users : List Str
deriving DecidableEq, Repr

/-- Result record built per user-less disk (`gcp/utils.py` 56-66). -/
structure UnattachedDiskItem where
  id : Str
  name : Str
  sizeGb : Str
  zone : Str
  creationTimestamp : Str
  labels : List (Str × Str)
deriving DecidableEq, Repr

/-- Embedding of `get_unattached_disks(credentials, project_id)`
(`gcp/utils.py` 44-72), same single-`try`/`except HttpError` shape. -/
def get_unattached_disks (listing : GcpListOutcome GcpDisk) :
    Except Str (List UnattachedDiskItem × List Str) :=
  let build := fun (records : List GcpDisk) =>
    (records.filter (fun d => d.users.isEmpty)).map (fun d =>
      (⟨d.id, d.name, d.sizeGb, d.zone, d.creationTimestamp, d.labels⟩ :
        UnattachedDiskItem))
  match listing with
  | .ok records => .ok (build records, [])
  | .httpError collected msg => .ok (build collected, [msg])
  | .otherExc msg => .error msg

/-- Budget record extracted by `gcp/utils.py get_budget_data` (86-96). -/
structure GcpBudget where
  name : Str
  amount : Str
  currency : Str
deriving DecidableEq, Repr

/-- Outcome of a single googleapiclient call: success, an `HttpError`, or
an exception of another class. -/
inductive GcpCallOutcome (α : Type) where
  | ok (a : α)
  | httpError (msg : Str)
  | otherExc (msg : Str)

/-- Embedding of `gcp/utils.py get_budget_data` (75-99): catches only
`HttpError`, returning `([], str(e))`; other exceptions propagate. -/
def gcp_get_budget_data (outcome : GcpCallOutcome (List GcpBudget)) :
    Except Str (List GcpBudget × Str) :=
  match outcome with
  | .ok budgets => .ok (budgets, [])
  | .httpError msg => .ok ([], msg)
  | .otherExc msg => .error msg

/-- Shape of the dict returned by `run_gcp_finops_audit`
(`gcp/tools.py` 97-108). -/
structure GcpAuditResult where
  projectId : Str
  stoppedVms : List StoppedVmItem
  unattachedDisks : List UnattachedDiskItem
  budgetStatus : List GcpBudget
  vmsErrors : List Str
  disksErrors : List Str
  budgetsError : Str

/-- Embedding of the public operation `run_gcp_finops_audit`
(`gcp/tools.py` 63-108): no `try/except` in the tool body, so a non-`HttpError`
exception inside any helper propagates to the caller. -/
def run_gcp_finops_audit (projectId : Str)
    (vmListing : GcpListOutcome GcpInstance)
    (diskListing : GcpListOutcome GcpDisk)
    (budgetOutcome : GcpCallOutcome (List GcpBudget)) :
    Except Str GcpAuditResult := do
  let (vms, vmsErr) ← get_stopped_vms vmListing
  let (disks, disksErr) ← get_unattached_disks diskListing
  let (budgets, budgetsErr) ← gcp_get_budget_data budgetOutcome
  .ok ⟨projectId, vms, disks, budgets, vmsErr, disksErr, budgetsErr⟩

/-- One row of the BigQuery billing query in `get_gcp_cost_breakdown`:
`service.description`, `location.region` (only selected by the
region-wise query; `NULL` models as `none`), `SUM(cost)`, `currency`. -/
structure GcpRow where
  service : Str
  region : Option Str
  totalCost : ℚ
  currency : Str

/-- Outcome of running the BigQuery billing query: result rows, the
`NotFound` exception (missing billing export table), or any other
exception. -/
inductive BqOutcome where
  | rows (rs : List GcpRow)
  | notFound
  | exc (msg : Str)

/-- Mock line items hard-coded in the `NotFound` fallback branch of
`get_gcp_cost_breakdown` (`gcp/utils.py` 209-222):
`(service, cost, currency, region)`. -/
structure GcpMockItem where
  service : Str
  cost : ℚ
  currency : Str
  region : Str

def gcpMockServices : List GcpMockItem :=
  [⟨"Compute Engine".toList, 1025/10, "USD".toList, "us-central1".toList⟩,
   ⟨"Cloud Storage".toList, 218/10, "USD".toList, "global".toList⟩]

/-- Two-level Python-dict update
`table[region][service] = table[region].get(service, 0.0) + v`
(with `table[region] = \x7b\x7d` inserted first when absent). -/
def insertAdd2 : List (Str × List (Str × ℚ)) → Str → Str → ℚ →
    List (Str × List (Str × ℚ))
  | [], r, s, v => [(r, [(s, v)])]
  | (r₁, m) :: rest, r, s, v =>
    if r₁ = r then (r₁, insertAdd m s v) :: rest
    else (r₁, m) :: insertAdd2 rest r s v

/-- Shape of the dict returned by `get_gcp_cost_breakdown`: exactly one of
`costByService` / `costByRegion` is present depending on `region_wise`,
and `note` only in the mock fallback. -/
structure GcpCostResult where
  projectId : Str
  startDate : Date
  endDate : Date
  totalCost : ℚ
  currency : Str
  costByService : Option (List (Str × ℚ))
  costByRegion : Option (List (Str × List (Str × ℚ)))
  note : Option Str

/-- Embedding of `get_gcp_cost_breakdown` (`gcp/utils.py` 102-266). The
whole body is inside `try`: `NotFound` returns the hard-coded mock data
with empty error string; `except Exception` returns `(\x7b\x7d, str(e))`, here
`(none, msg)`; success accumulates raw sums per service (or per region and
service), carries the last-seen currency, and rounds ONLY at the
presentation boundary. -/
def get_gcp_cost_breakdown (todayUtc : Date) (projectId : Str)
    (timeRangeDays : Option Int) (startIso endIso : Option Str)
    (regionWise : Bool) (query : BqOutcome) : Option GcpCostResult × Str :=
  match resolveDates todayUtc timeRangeDays startIso endIso with
  | .error m => (none, m)
  | .ok (ds, de) =>
    match query with
    | .exc m => (none, m)
    | .notFound =>
      let total := (gcpMockServices.map (fun i => i.cost)).sum
      if regionWise then
        (some { projectId := projectId, startDate := ds, endDate := de,
                totalCost := pyRound2 total, currency := "USD".toList,
                costByService := none,
                costByRegion := some (gcpMockServices.foldl (fun acc i =>
                  insertAdd2 acc i.region i.service i.cost) []),
                note := some "Returned mock region-wise data as no billing export was found.".toList },
         [])
      else
        (some { projectId := projectId, startDate := ds, endDate := de,
                totalCost := pyRound2 total, currency := "USD".toList,
                costByService := some (aggFold (gcpMockServices.map (fun i =>
                  (i.service, i.cost)))),
                costByRegion := none,
                note := some "Returned mock service-wise data as no billing export was found.".toList },
         [])
    | .rows rs =>
      let total := (rs.map (fun r => r.totalCost)).sum
      let currency := rs.foldl (fun _ r => r.currency) "USD".toList
      if regionWise then
        let table := rs.foldl (fun acc r =>
          insertAdd2 acc (match r.region with
            | some reg => if reg.isEmpty then "global".toList else reg
            | none => "global".toList) r.service r.totalCost) []
        (some { projectId := projectId, startDate := ds, endDate := de,
                totalCost := pyRound2 total, currency := currency,
                costByService := none,
                costByRegion := some (table.map (fun p =>
                  (p.1, p.2.map (fun q => (q.1, pyRound2 q.2))))),
                note := none },
         [])
      else
        (some { projectId := projectId, startDate := ds, endDate := de,
                totalCost := pyRound2 total, currency := currency,
                costByService := some (gcpCostByService (rs.map (fun r =>
                  (r.service, r.totalCost)))),
                costByRegion := none,
                note := none },
         [])

/-- Embedding of the public operation `get_gcp_cost` (`gcp/tools.py`
17-60): it merges the breakdown dict with the error string and never adds
error handling of its own, so it is total exactly because
`get_gcp_cost_breakdown` is. -/
def get_gcp_cost (todayUtc : Date) (projectId : Str)
    (timeRangeDays : Option Int) (startIso endIso : Option Str)
    (regionWise : Bool) (query : BqOutcome) : Option GcpCostResult × Str :=
  get_gcp_cost_breakdown todayUtc projectId timeRangeDays startIso endIso
    regionWise query

/-- Exact sum of the amounts of all rows carrying a given grouping key
(the mathematical value the accumulation fold is meant to compute). -/
def keySum (rows : List (Str × ℚ)) (k : Str) : ℚ :=
  ((rows.filter (fun r => r.1 = k)).map Prod.snd).sum

/-- Lexicographic date comparison, modelling Python `date.__lt__`. -/
def dateLtB (a b : Date) : Bool :=
  a.year < b.year ||
  (a.year = b.year && (a.month < b.month ||
    (a.month = b.month && a.day < b.day)))

/-- Fixture: a region-describe outcome where exactly `us-west-2` raises. -/
def exDescribeE : Str → Except Str (List Ec2Instance) :=
  fun r => if r = "us-west-2".toList then .error "PermissionDenied".toList
    else .ok [⟨"i-1".toList, "t3.micro".toList, "2024-01-01".toList, []⟩]

/-- Fixture: the per-region items of `exDescribeE` on its non-failing regions. -/
def exOkE : Str → List Ec2Instance :=
  fun _ => [⟨"i-1".toList, "t3.micro".toList, "2024-01-01".toList, []⟩]

/-- Fixture: an address-describe outcome where exactly `us-west-2` raises. -/
def exDescribeA : Str → Except Str (List EipAddress) :=
  fun r => if r = "us-west-2".toList then .error "PermissionDenied".toList
    else .ok []

theorem regionScatter_acc (op : Str → Except Str (List α)) :
    ∀ (regions : List Str) (res : List α) (errs : List Str),
      List.foldl (regionStep op) (res, errs) regions
        = (res ++ (regionScatter op regions).1, errs ++ (regionScatter op regions).2) := by
  intro regions
  induction regions with
  | nil => intro res errs; simp [regionScatter]
  | cons r rs ih =>
    intro res errs
    simp only [List.foldl_cons, regionScatter] at *
    cases h : op r with
    | ok items =>
      simp only [regionStep, h, List.nil_append]
      rw [ih (res ++ items) errs, ih items []]
      simp [List.append_assoc]
    | error e =>
      simp only [regionStep, h, List.nil_append]
      rw [ih res (errs ++ [regionErrEntry r e]), ih [] [regionErrEntry r e]]
      simp [List.append_assoc]

theorem regionScatter_append (op : Str → Except Str (List α)) (xs ys : List Str) :
    regionScatter op (xs ++ ys)
      = ((regionScatter op xs).1 ++ (regionScatter op ys).1,
         (regionScatter op xs).2 ++ (regionScatter op ys).2) := by
  unfold regionScatter
  rw [List.foldl_append]
  have h := regionScatter_acc op ys (regionScatter op xs).1 (regionScatter op xs).2
  simpa [regionScatter] using h

theorem regionScatter_all_ok (op : Str → Except Str (List α)) (items : Str → List α) :
    ∀ regions : List Str, (∀ r ∈ regions, op r = .ok (items r)) →
      regionScatter op regions = (regions.flatMap items, []) := by
  intro regions
  induction regions with
  | nil => intro _; simp [regionScatter]
  | cons r rs ih =>
    intro h
    have hr : op r = .ok (items r) := h r (by simp)
    have hrest : ∀ x ∈ rs, op x = .ok (items x) := fun x hx => h x (by simp [hx])
    unfold regionScatter
    simp only [List.foldl_cons, regionStep, hr, List.nil_append]
    rw [regionScatter_acc op rs (items r) []]
    rw [ih hrest]
    simp

theorem regionScatter_one_error (op : Str → Except Str (List α)) (items : Str → List α)
    (pre post : List Str) (fr e : Str) (hf : op fr = .error e)
    (hok : ∀ r ∈ pre ++ post, op r = .ok (items r)) :
    regionScatter op (pre ++ fr :: post)
      = ((pre ++ post).flatMap items, [regionErrEntry fr e]) := by
  have hpre : ∀ r ∈ pre, op r = .ok (items r) := fun r hr => hok r (by simp [hr])
  have hpost : ∀ r ∈ post, op r = .ok (items r) := fun r hr => hok r (by simp [hr])
  have h1 : regionScatter op [fr] = ([], [regionErrEntry fr e]) := by
    simp [regionScatter, regionStep, hf]
  calc regionScatter op (pre ++ fr :: post)
      = regionScatter op (pre ++ [fr] ++ post) := by simp
    _ = _ := by
        rw [regionScatter_append op (pre ++ [fr]) post,
            regionScatter_append op pre [fr], h1,
            regionScatter_all_ok op items pre hpre,
            regionScatter_all_ok op items post hpost]
        simp

/-- C1: in the per-region scatter-gather of `get_stopped_ec2` and
`get_unassociated_eips`, when exactly one region's provider call raises,
the run returns normally (never re-raising), records exactly one error
entry carrying that region's identity, keeps processing the remaining
regions, and the results are the concatenation of all other regions'
items in order, with no contribution from the failing region. -/
theorem scatter_singleFailure_isolation
    (describeE : Str → Except Str (List Ec2Instance))
    (describeA : Str → Except Str (List EipAddress))
    (okE : Str → List Ec2Instance) (okA : Str → List EipAddress)
    (pre post : List Str) (fr msgE msgA : Str)
    (hE : describeE fr = .error msgE)
    (hA : describeA fr = .error msgA)
    (hokE : ∀ r ∈ pre ++ post, describeE r = .ok (okE r))
    (hokA : ∀ r ∈ pre ++ post, describeA r = .ok (okA r)) :
    get_stopped_ec2 describeE (pre ++ fr :: post)
      = ((pre ++ post).flatMap (fun r => (okE r).map (fun i =>
           (⟨i.instanceId, i.instanceType, r, i.launchTime, i.tags⟩ : StoppedEc2Item))),
         [regionErrEntry fr msgE])
    ∧ get_unassociated_eips describeA (pre ++ fr :: post)
      = ((pre ++ post).flatMap (fun r =>
           ((okA r).filter (fun a => a.instanceId.isNone)).map (fun a =>
             (⟨a.publicIp, a.allocationId, r⟩ : EipItem))),
         [regionErrEntry fr msgA]) := by
  constructor
  · exact regionScatter_one_error _ _ pre post fr msgE
      (by simp [Except.map, hE])
      (fun r hr => by simp [Except.map, hokE r hr])
  · exact regionScatter_one_error _ _ pre post fr msgA
      (by simp [Except.map, hA])
      (fun r hr => by simp [Except.map, hokA r hr])

theorem scatter_singleFailure_isolation_witness :
    (exDescribeE "us-west-2".toList = .error "PermissionDenied".toList)
    ∧ get_stopped_ec2 exDescribeE (["us-east-1".toList] ++ "us-west-2".toList :: [])
        = ((["us-east-1".toList] ++ []).flatMap (fun (r : Str) => (exOkE r).map (fun (i : Ec2Instance) =>
             (⟨i.instanceId, i.instanceType, r, i.launchTime, i.tags⟩ : StoppedEc2Item))),
           [regionErrEntry "us-west-2".toList "PermissionDenied".toList]) := by
  refine ⟨by decide, ?_⟩
  exact (scatter_singleFailure_isolation exDescribeE exDescribeA exOkE (fun _ => [])
    ["us-east-1".toList] [] "us-west-2".toList
    "PermissionDenied".toList "PermissionDenied".toList
    (by decide) (by decide) (by decide) (by decide)).1

/-- C2: when every region's provider call succeeds, the scatter-gather
run of `get_stopped_ec2` yields an empty error collection and the
concatenation of every region's items in caller order; an empty region
list yields empty results and errors, and a region returning zero items
is a success contributing nothing. -/
theorem scatter_allSuccess_concat (okE : Str → List Ec2Instance)
    (regions : List Str) (r0 : Str) :
    get_stopped_ec2 (fun r => .ok (okE r)) regions
      = (regions.flatMap (fun r => (okE r).map (fun i =>
           (⟨i.instanceId, i.instanceType, r, i.launchTime, i.tags⟩ : StoppedEc2Item))), [])
    ∧ get_stopped_ec2 (fun r => .ok (okE r)) [] = ([], [])
    ∧ get_stopped_ec2 (fun _ => .ok []) [r0] = ([], []) := by
  refine ⟨?_, by simp [get_stopped_ec2, regionScatter], ?_⟩
  · exact regionScatter_all_ok _ _ regions (fun r _ => by simp [Except.map])
  · simp [get_stopped_ec2, regionScatter, regionStep, Except.map]

theorem splitFirstEq_none (s : Str) (h : '=' ∉ s) : splitFirstEq s = none := by
  induction s with
  | nil => rfl
  | cons c rest ih =>
    have hc : ¬ c = '=' := by intro hc; exact h (by simp [hc])
    have hr : '=' ∉ rest := fun hmem => h (List.mem_cons_of_mem _ hmem)
    simp [splitFirstEq, hc, ih hr]

theorem splitFirstEq_found (k v : Str) (h : '=' ∉ k) :
    splitFirstEq (k ++ '=' :: v) = some (k, v) := by
  induction k with
  | nil => simp [splitFirstEq]
  | cons c rest ih =>
    have hc : ¬ c = '=' := by intro hc; exact h (by simp [hc])
    have hr : '=' ∉ rest := fun hmem => h (List.mem_cons_of_mem _ hmem)
    simp [splitFirstEq, hc, ih hr]

theorem tagFilterListOf_nil_iff (l : List (Str × Str)) :
    tagFilterListOf l = [] ↔ l = [] := by
  match l with
  | [] => simp [tagFilterListOf]
  | [p] => simp [tagFilterListOf]
  | p :: q :: rest => simp [tagFilterListOf]

theorem dimFilterListOf_nil_iff (l : List (Str × Str)) :
    dimFilterListOf l = [] ↔ l = [] := by
  match l with
  | [] => simp [dimFilterListOf]
  | [p] => simp [dimFilterListOf]
  | p :: q :: rest => simp [dimFilterListOf]

theorem tagFilterListOf_single (l : List (Str × Str)) (h : l ≠ []) :
    ∃ f, tagFilterListOf l = [f] := by
  match l with
  | [] => exact absurd rfl h
  | [p] => exact ⟨_, rfl⟩
  | p :: q :: rest => exact ⟨_, rfl⟩

theorem dimFilterListOf_single (l : List (Str × Str)) (h : l ≠ []) :
    ∃ f, dimFilterListOf l = [f] := by
  match l with
  | [] => exact absurd rfl h
  | [p] => exact ⟨_, rfl⟩
  | p :: q :: rest => exact ⟨_, rfl⟩

/-- C7: the filter builder `cost_filters` silently drops strings without
`=`, splits each kept string on its first `=`, returns no `Filter` kwarg
exactly when both categories parse to nothing, produces a bare leaf for a
one-entry category and an `And` of leaves for two or more entries, and
combines two non-empty category results under one top-level `And`. -/
theorem cost_filters_shapes (tags dims : List Str) (s k v : Str)
    (p q : Str × Str) (rest : List (Str × Str)) :
    ('=' ∉ s → kvPairs (s :: tags) = kvPairs tags)
    ∧ ('=' ∉ k → splitFirstEq (k ++ '=' :: v) = some (k, v))
    ∧ (cost_filters (some tags) (some dims) = none ↔
        kvPairs tags = [] ∧ kvPairs dims = [])
    ∧ (kvPairs tags = [(k, v)] → kvPairs dims = [] →
        cost_filters (some tags) (some dims) = some (.tagLeaf k [v]))
    ∧ (kvPairs tags = p :: q :: rest → kvPairs dims = [] →
        cost_filters (some tags) (some dims)
          = some (.and ((p :: q :: rest).map (fun x => .tagLeaf x.1 [x.2]))))
    ∧ (kvPairs tags ≠ [] → kvPairs dims ≠ [] →
        cost_filters (some tags) (some dims)
          = some (.and (tagFilterListOf (kvPairs tags)
              ++ dimFilterListOf (kvPairs dims)))) := by
  refine ⟨?_, splitFirstEq_found k v, ?_, ?_, ?_, ?_⟩
  · intro h
    simp [kvPairs, splitFirstEq_none s h]
  · cases h : tagFilterListOf (kvPairs tags) ++ dimFilterListOf (kvPairs dims) with
    | nil =>
      simp only [List.append_eq_nil] at h
      rw [tagFilterListOf_nil_iff, dimFilterListOf_nil_iff] at h
      simp [cost_filters, h.1, h.2, tagFilterListOf, dimFilterListOf]
    | cons f fs =>
      constructor
      · intro hnone
        exfalso
        cases fs with
        | nil => simp [cost_filters, h] at hnone
        | cons g gs => simp [cost_filters, h] at hnone
      · intro ⟨ht, hd⟩
        rw [ht, hd] at h
        simp [tagFilterListOf, dimFilterListOf] at h
  · intro ht hd
    simp [cost_filters, ht, hd, tagFilterListOf, dimFilterListOf]
  · intro ht hd
    simp [cost_filters, ht, hd, tagFilterListOf, dimFilterListOf]
  · intro ht hd
    obtain ⟨tf, htf⟩ := tagFilterListOf_single _ ht
    obtain ⟨df, hdf⟩ := dimFilterListOf_single _ hd
    simp [cost_filters, htf, hdf]

theorem cost_filters_shapes_witness :
    (kvPairs ["Env=Prod".toList] = [("Env".toList, "Prod".toList)])
    ∧ cost_filters (some ["Env=Prod".toList]) (some [])
        = some (.tagLeaf "Env".toList ["Prod".toList])
    ∧ cost_filters (some ["Env=Prod".toList, "Team=X".toList]) (some [])
        = some (.and [.tagLeaf "Env".toList ["Prod".toList],
                      .tagLeaf "Team".toList ["X".toList]]) := by
  refine ⟨by decide, ?_, ?_⟩
  · exact (cost_filters_shapes ["Env=Prod".toList] [] [] "Env".toList "Prod".toList
      ("Env".toList, "Prod".toList) ("Team".toList, "X".toList) []).2.2.2.1
      (by decide) (by decide)
  · have h := (cost_filters_shapes ["Env=Prod".toList, "Team=X".toList] [] [] [] []
      ("Env".toList, "Prod".toList) ("Team".toList, "X".toList) []).2.2.2.2.1
      (by decide) (by decide)
    simpa using h

theorem one_le_daysInMonth (y : Int) (m : Nat) : 1 ≤ daysInMonth y m := by
  unfold daysInMonth
  split
  · split <;> decide
  · split <;> decide

theorem daysInMonth_twelve (y : Int) : daysInMonth y 12 = 31 := by
  unfold daysInMonth
  norm_num

theorem predDate_valid (d : Date) (h : ValidDate d) : ValidDate (predDate d) := by
  obtain ⟨y, m, dd⟩ := d
  obtain ⟨h1, h2, h3, h4⟩ := h
  dsimp only at h1 h2 h3 h4
  unfold predDate
  dsimp only
  split
  · exact ⟨h1, h2, by dsimp only; omega, by dsimp only; omega⟩
  · split
    · exact ⟨by dsimp only; omega, by dsimp only; omega,
        one_le_daysInMonth _ _, le_refl _⟩
    · refine ⟨by dsimp only; omega, by dsimp only; omega, by dsimp only; omega, ?_⟩
      show (31 : Nat) ≤ daysInMonth (y - 1) 12
      rw [daysInMonth_twelve]

theorem succ_predDate (d : Date) (h : ValidDate d) : succDate (predDate d) = d := by
  obtain ⟨y, m, dd⟩ := d
  obtain ⟨h1, h2, h3, h4⟩ := h
  dsimp only at h1 h2 h3 h4
  unfold predDate
  dsimp only
  split
  case isTrue hdd =>
    unfold succDate
    dsimp only
    rw [if_pos (by omega : dd - 1 < daysInMonth y m)]
    simp only [Date.mk.injEq, true_and]
    omega
  case isFalse hdd =>
    split
    case isTrue hm =>
      unfold succDate
      dsimp only
      rw [if_neg (by omega : ¬ daysInMonth y (m - 1) < daysInMonth y (m - 1)),
          if_pos (by omega : m - 1 < 12)]
      simp only [Date.mk.injEq, true_and]
      omega
    case isFalse hm =>
      unfold succDate
      dsimp only
      rw [if_neg (by rw [daysInMonth_twelve]; omega),
          if_neg (by omega : ¬ (12 : Nat) < 12)]
      simp only [Date.mk.injEq, true_and]
      omega

theorem pred_iter_valid_succ (k : Nat) :
    ∀ d : Date, ValidDate d →
      ValidDate (predDate^[k] d) ∧ succDate^[k] (predDate^[k] d) = d := by
  induction k with
  | zero => intro d h; exact ⟨h, rfl⟩
  | succ k ih =>
    intro d h
    obtain ⟨hv, hs⟩ := ih (predDate d) (predDate_valid d h)
    rw [Function.iterate_succ_apply]
    refine ⟨hv, ?_⟩
    rw [Function.iterate_succ_apply', hs]
    exact succ_predDate d h

theorem parseDate_ok_not_empty (s : Str) (d : Date) (h : parseDate s = .ok d) :
    truthyStr (some s) = true := by
  cases s with
  | nil =>
    rw [show parseDate [] =
      Except.error ("ValueError: time data does not match format %Y-%m-%d".toList)
      from rfl] at h
    cases h
  | cons c cs => simp [truthyStr, List.isEmpty]

/-- C5: date-range resolution obeys the three-level precedence of the
shared resolution block: explicit `start_iso`/`end_iso` are parsed and
used verbatim, overriding any simultaneously supplied `time_range_days`;
otherwise a truthy `time_range_days = n ≥ 1` yields the n-day inclusive
window ending today (`start = today - (n-1) days`, and stepping forward
`n-1` days from `start` lands back on `today`); otherwise the window is
the first of the current month through today. -/
theorem dateRange_precedence (today : Date) (trd : Option Int) (s e : Str)
    (ds de : Date) (n : Int) :
    (parseDate s = .ok ds → parseDate e = .ok de →
      resolveDates today trd (some s) (some e) = .ok (ds, de))
    ∧ (1 ≤ n → ValidDate today →
        resolveDates today (some n) none none
          = .ok (predDate^[(n - 1).toNat] today, today)
        ∧ succDate^[(n - 1).toNat] (predDate^[(n - 1).toNat] today) = today)
    ∧ resolveDates today none none none
        = .ok (⟨today.year, today.month, 1⟩, today) := by
  refine ⟨?_, ?_, ?_⟩
  · intro h1 h2
    have hs := parseDate_ok_not_empty s ds h1
    have he := parseDate_ok_not_empty e de h2
    simp only [resolveDates, hs, he, Bool.and_self, if_pos, Option.getD, h1, h2]
    rfl
  · intro hn hv
    have ht : truthyInt (some n) = true := by
      simp [truthyInt]
      omega
    have h0 : (0 : Int) ≤ n - 1 := by omega
    constructor
    · simp [resolveDates, truthyStr, ht, subDaysInt, h0]
    · exact (pred_iter_valid_succ (n - 1).toNat today hv).2
  · simp [resolveDates, truthyStr, truthyInt]

theorem dateRange_precedence_witness :
    ((1 : Int) ≤ 7 ∧ ValidDate ⟨2024, 6, 15⟩)
    ∧ resolveDates ⟨2024, 6, 15⟩ (some 30)
        (some "2024-03-01".toList) (some "2024-03-10".toList)
        = .ok (⟨2024, 3, 1⟩, ⟨2024, 3, 10⟩)
    ∧ resolveDates ⟨2024, 6, 15⟩ (some 7) none none
        = .ok (predDate^[((7 : Int) - 1).toNat] ⟨2024, 6, 15⟩, ⟨2024, 6, 15⟩) := by
  refine ⟨⟨by decide, by decide⟩, ?_, ?_⟩
  · exact (dateRange_precedence ⟨2024, 6, 15⟩ (some 30) "2024-03-01".toList
      "2024-03-10".toList ⟨2024, 3, 1⟩ ⟨2024, 3, 10⟩ 7).1 (by decide) (by decide)
  · exact ((dateRange_precedence ⟨2024, 6, 15⟩ (some 7) [] [] ⟨2024, 3, 1⟩
      ⟨2024, 3, 10⟩ 7).2.1 (by decide) (by decide)).1

/-- C6 counterexample: an explicit range whose end date is earlier than
its start date is NOT rejected — resolution succeeds and returns the
reversed range, contradicting the claim that it fails with an
`InvalidRange` error. -/
theorem dateRange_reversed_not_rejected_cex :
    resolveDates ⟨2024, 6, 15⟩ none
        (some "2024-05-10".toList) (some "2024-05-01".toList)
      = .ok (⟨2024, 5, 10⟩, ⟨2024, 5, 1⟩)
    ∧ dateLtB ⟨2024, 5, 1⟩ ⟨2024, 5, 10⟩ = true := by
  constructor
  · decide
  · decide

/-- C6 (amended): a malformed date string makes resolution fail fast with
a ValueError-style parse error — in `get_cost` this error is raised
before either Cost Explorer response is consulted — but an explicit range
with `end_iso` earlier than `start_iso` is NOT validated: resolution
returns the reversed range verbatim. -/
theorem dateRange_validation_amended (env : AwsCostEnv) (acct profile : Str)
    (tags dims : Option (List Str)) (today : Date) (trd : Option Int)
    (s e : Str) (ds de : Date) (m : Str) :
    (truthyStr (some s) = true → truthyStr (some e) = true →
      parseDate s = .error m →
      resolveDates today trd (some s) (some e) = .error m)
    ∧ (parseDate s = .ok ds → truthyStr (some e) = true →
        parseDate e = .error m →
        resolveDates today trd (some s) (some e) = .error m)
    ∧ (parseDate s = .ok ds → parseDate e = .ok de → dateLtB de ds = true →
        resolveDates today trd (some s) (some e) = .ok (ds, de))
    ∧ (env.sts = .ok acct → truthyStr (some s) = true →
        truthyStr (some e) = true → parseDate s = .error m →
        awsGetCost env profile trd (some s) (some e) tags dims = .error m) := by
  refine ⟨?_, ?_, ?_, ?_⟩
  · intro hs he h1
    simp only [resolveDates, hs, he, Bool.and_self, if_pos, Option.getD, h1]
    rfl
  · intro h1 he h2
    have hs := parseDate_ok_not_empty s ds h1
    simp only [resolveDates, hs, he, Bool.and_self, if_pos, Option.getD, h1, h2]
    rfl
  · intro h1 h2 _
    have hs := parseDate_ok_not_empty s ds h1
    have he := parseDate_ok_not_empty e de h2
    simp only [resolveDates, hs, he, Bool.and_self, if_pos, Option.getD, h1, h2]
    rfl
  · intro hsess hs he h1
    unfold awsGetCost
    rw [hsess]
    simp only [get_boto3_session, clientOnSession]
    have hres : resolveDates env.today trd (some s) (some e) = .error m := by
      simp only [resolveDates, hs, he, Bool.and_self, if_pos, Option.getD, h1]
      rfl
    simp only [hres]
    rfl

theorem dateRange_validation_amended_witness :
    (parseDate "garbage".toList
      = .error "ValueError: time data does not match format %Y-%m-%d".toList)
    ∧ (parseDate "24-01-02".toList
      = .error "ValueError: time data does not match format %Y-%m-%d".toList)
    ∧ (parseDate "2024-01- 2".toList = .ok ⟨2024, 1, 2⟩)
    ∧ resolveDates ⟨2024, 6, 15⟩ none
        (some "garbage".toList) (some "2024-01-02".toList)
      = .error "ValueError: time data does not match format %Y-%m-%d".toList
    ∧ resolveDates ⟨2024, 6, 15⟩ none
        (some "24-01-02".toList) (some "2024-01-02".toList)
      = .error "ValueError: time data does not match format %Y-%m-%d".toList
    ∧ resolveDates ⟨2024, 6, 15⟩ none
        (some "2024-02-10".toList) (some "2024-01- 2".toList)
      = .ok (⟨2024, 2, 10⟩, ⟨2024, 1, 2⟩)
    ∧ awsGetCost ⟨⟨2024, 6, 15⟩, .ok "123456789012".toList, .ok [], .ok []⟩
        "default".toList none (some "garbage".toList) (some "2024-01-02".toList)
        none none
      = .error "ValueError: time data does not match format %Y-%m-%d".toList := by
  refine ⟨by decide, by decide, by decide, ?_, ?_, ?_, ?_⟩
  · exact (dateRange_validation_amended
      ⟨⟨2024, 6, 15⟩, .ok "123456789012".toList, .ok [], .ok []⟩
      "123456789012".toList "default".toList none none ⟨2024, 6, 15⟩ none
      "garbage".toList "2024-01-02".toList ⟨2024, 1, 2⟩ ⟨2024, 1, 2⟩
      "ValueError: time data does not match format %Y-%m-%d".toList).1
      (by decide) (by decide) (by decide)
  · exact (dateRange_validation_amended
      ⟨⟨2024, 6, 15⟩, .ok "123456789012".toList, .ok [], .ok []⟩
      "123456789012".toList "default".toList none none ⟨2024, 6, 15⟩ none
      "24-01-02".toList "2024-01-02".toList ⟨2024, 1, 2⟩ ⟨2024, 1, 2⟩
      "ValueError: time data does not match format %Y-%m-%d".toList).1
      (by decide) (by decide) (by decide)
  · exact (dateRange_validation_amended
      ⟨⟨2024, 6, 15⟩, .ok "123456789012".toList, .ok [], .ok []⟩
      "123456789012".toList "default".toList none none ⟨2024, 6, 15⟩ none
      "2024-02-10".toList "2024-01- 2".toList ⟨2024, 2, 10⟩ ⟨2024, 1, 2⟩
      "ValueError: time data does not match format %Y-%m-%d".toList).2.2.1
      (by decide) (by decide) (by decide)
  · exact (dateRange_validation_amended
      ⟨⟨2024, 6, 15⟩, .ok "123456789012".toList, .ok [], .ok []⟩
      "123456789012".toList "default".toList none none ⟨2024, 6, 15⟩ none
      "garbage".toList "2024-01-02".toList ⟨2024, 1, 2⟩ ⟨2024, 1, 2⟩
      "ValueError: time data does not match format %Y-%m-%d".toList).2.2.2
      (by decide) (by decide) (by decide) (by decide)

theorem insertAdd_lookup (acc : List (Str × ℚ)) (k : Str) (v : ℚ) (q : Str) :
    lookupQ (insertAdd acc k v) q =
      if q = k then some ((lookupQ acc k).getD 0 + v) else lookupQ acc q := by
  induction acc with
  | nil =>
    by_cases hq : q = k
    · simp [insertAdd, lookupQ, hq]
    · simp [insertAdd, lookupQ, hq, Ne.symm hq]
  | cons p rest ih =>
    obtain ⟨k₁, v₁⟩ := p
    by_cases h1 : k₁ = k
    · subst h1
      by_cases hq : q = k₁
      · subst hq
        simp [insertAdd, lookupQ]
      · simp [insertAdd, lookupQ, hq, Ne.symm hq]
    · by_cases hq : q = k₁
      · subst hq
        simp [insertAdd, lookupQ, h1]
      · simp [insertAdd, lookupQ, h1, hq, Ne.symm hq, ih]

theorem keySum_cons_self (k : Str) (v : ℚ) (rest : List (Str × ℚ)) :
    keySum ((k, v) :: rest) k = v + keySum rest k := by
  simp [keySum, List.filter_cons]

theorem keySum_cons_ne (k k₁ : Str) (v : ℚ) (rest : List (Str × ℚ))
    (h : ¬ k₁ = k) : keySum ((k₁, v) :: rest) k = keySum rest k := by
  simp [keySum, List.filter_cons, h]

theorem keySum_not_mem (rows : List (Str × ℚ)) (k : Str)
    (h : k ∉ rows.map Prod.fst) : keySum rows k = 0 := by
  unfold keySum
  have hnil : rows.filter (fun r => r.1 = k) = [] := by
    apply List.filter_eq_nil_iff.mpr
    intro r hr
    simp only [decide_eq_true_eq]
    intro he
    exact h (List.mem_map.mpr ⟨r, hr, he⟩)
  rw [hnil]
  rfl

theorem foldl_insertAdd_lookup :
    ∀ (rows : List (Str × ℚ)) (acc : List (Str × ℚ)) (k : Str),
      lookupQ (rows.foldl (fun a r => insertAdd a r.1 r.2) acc) k =
        if k ∈ rows.map Prod.fst then
          some ((lookupQ acc k).getD 0 + keySum rows k)
        else lookupQ acc k := by
  intro rows
  induction rows with
  | nil => intro acc k; simp [keySum]
  | cons p rest ih =>
    obtain ⟨k₁, v₁⟩ := p
    intro acc k
    rw [List.foldl_cons]
    dsimp only
    rw [ih]
    by_cases hk : k = k₁
    · subst hk
      rw [insertAdd_lookup, if_pos rfl, keySum_cons_self]
      by_cases hmem : k ∈ rest.map Prod.fst
      · rw [if_pos hmem, if_pos (by simp)]
        simp [add_assoc]
      · rw [if_neg hmem, if_pos (by simp), keySum_not_mem rest k hmem]
        simp
    · rw [insertAdd_lookup, if_neg hk, keySum_cons_ne k k₁ v₁ rest (fun h => hk h.symm)]
      have hmem2 : (k ∈ ((k₁, v₁) :: rest).map Prod.fst) ↔ (k ∈ rest.map Prod.fst) := by
        simp [hk]
      by_cases hmem : k ∈ rest.map Prod.fst
      · simp [hmem, hmem2]
      · simp [hmem, hmem2, insertAdd_lookup, hk]

theorem aggFold_lookup (rows : List (Str × ℚ)) (k : Str) :
    lookupQ (aggFold rows) k =
      if k ∈ rows.map Prod.fst then some (keySum rows k) else none := by
  unfold aggFold
  rw [foldl_insertAdd_lookup]
  by_cases h : k ∈ rows.map Prod.fst
  · rw [if_pos h, if_pos h]
    simp [lookupQ]
  · rw [if_neg h, if_neg h]
    rfl

theorem insDesc_perm (x : Str × ℚ) (l : List (Str × ℚ)) :
    (insDesc x l).Perm (x :: l) := by
  induction l with
  | nil => exact List.Perm.refl _
  | cons y ys ih =>
    unfold insDesc
    by_cases h : y.2 ≤ x.2
    · rw [if_pos h]
    · rw [if_neg h]
      exact (ih.cons y).trans (List.Perm.swap x y ys)

theorem sortDesc_perm (l : List (Str × ℚ)) : (sortDesc l).Perm l := by
  induction l with
  | nil => exact List.Perm.refl _
  | cons x xs ih => exact (insDesc_perm x (sortDesc xs)).trans (ih.cons x)

theorem insDesc_sorted (x : Str × ℚ) (l : List (Str × ℚ))
    (h : l.Pairwise (fun a b => b.2 ≤ a.2)) :
    (insDesc x l).Pairwise (fun a b => b.2 ≤ a.2) := by
  induction l with
  | nil => simp [insDesc]
  | cons y ys ih =>
    rw [List.pairwise_cons] at h
    obtain ⟨hy, hys⟩ := h
    unfold insDesc
    by_cases hc : y.2 ≤ x.2
    · rw [if_pos hc]
      refine List.Pairwise.cons ?_ (List.Pairwise.cons hy hys)
      intro z hz
      rcases List.mem_cons.mp hz with rfl | hz2
      · exact hc
      · exact le_trans (hy z hz2) hc
    · rw [if_neg hc]
      refine List.Pairwise.cons ?_ (ih hys)
      intro z hz
      have hz2 := (insDesc_perm x ys).mem_iff.mp hz
      rcases List.mem_cons.mp hz2 with rfl | hz3
      · exact le_of_lt (lt_of_not_le hc)
      · exact hy z hz3

theorem sortDesc_sorted (l : List (Str × ℚ)) :
    (sortDesc l).Pairwise (fun a b => b.2 ≤ a.2) := by
  induction l with
  | nil => simp [sortDesc]
  | cons x xs ih => exact insDesc_sorted x (sortDesc xs) ih

theorem insDesc_filter (x : Str × ℚ) (l : List (Str × ℚ)) (v : ℚ) :
    (insDesc x l).filter (fun p => p.2 = v)
      = if x.2 = v then x :: l.filter (fun p => p.2 = v)
        else l.filter (fun p => p.2 = v) := by
  induction l with
  | nil =>
    by_cases hx : x.2 = v
    · simp [insDesc, List.filter, hx]
    · simp [insDesc, List.filter, hx]
  | cons y ys ih =>
    unfold insDesc
    by_cases hc : y.2 ≤ x.2
    · rw [if_pos hc]
      simp [List.filter_cons]
    · rw [if_neg hc]
      by_cases hx : x.2 = v
      · by_cases hy : y.2 = v
        · exact absurd (le_of_eq (hy.trans hx.symm)) hc
        · simp [List.filter_cons, hx, hy, ih]
      · simp [List.filter_cons, hx, ih]

theorem sortDesc_filter (l : List (Str × ℚ)) (v : ℚ) :
    (sortDesc l).filter (fun p => p.2 = v) = l.filter (fun p => p.2 = v) := by
  induction l with
  | nil => rfl
  | cons x xs ih =>
    show (insDesc x (sortDesc xs)).filter _ = _
    rw [insDesc_filter]
    by_cases hx : x.2 = v
    · simp [List.filter_cons, hx, ih]
    · simp [List.filter_cons, hx, ih]

theorem lookupQ_mem (l : List (Str × ℚ)) (k : Str) (v : ℚ)
    (h : lookupQ l k = some v) : (k, v) ∈ l := by
  induction l with
  | nil => cases h
  | cons p rest ih =>
    obtain ⟨k₁, v₁⟩ := p
    by_cases hk : k₁ = k
    · subst hk
      simp [lookupQ] at h
      subst h
      exact List.mem_cons_self _ _
    · simp [lookupQ, hk] at h
      exact List.mem_cons_of_mem _ (ih h)

theorem lookupQ_map_val (f : ℚ → ℚ) (l : List (Str × ℚ)) (k : Str) :
    lookupQ (l.map (fun p => (p.1, f p.2))) k = (lookupQ l k).map f := by
  induction l with
  | nil => rfl
  | cons p rest ih =>
    obtain ⟨k₁, v₁⟩ := p
    by_cases hk : k₁ = k
    · simp [lookupQ, hk]
    · simp [lookupQ, hk, ih]

/-- C10: cost aggregation is order-independent — feeding the same
multiset of rows in any permutation yields the same final
key-to-summed-cost mapping, exactly, with amounts as exact rationals:
every grouping key looks up to the same accumulated value. -/
theorem aggregate_perm_invariant (rows rows2 : List (Str × ℚ))
    (h : rows.Perm rows2) (k : Str) :
    lookupQ (aggFold rows) k = lookupQ (aggFold rows2) k := by
  rw [aggFold_lookup, aggFold_lookup]
  have hkeys := (h.map Prod.fst).mem_iff (a := k)
  have hsum : keySum rows k = keySum rows2 k := by
    unfold keySum
    exact ((h.filter (fun r => r.1 = k)).map Prod.snd).sum_eq
  by_cases hm : k ∈ rows.map Prod.fst
  · rw [if_pos hm, if_pos (hkeys.mp hm), hsum]
  · rw [if_neg hm, if_neg (fun hc => hm (hkeys.mpr hc))]

theorem aggregate_perm_invariant_witness :
    ([("EC2".toList, (1 : ℚ)), ("S3".toList, 2)].Perm
      [("S3".toList, (2 : ℚ)), ("EC2".toList, 1)])
    ∧ lookupQ (aggFold [("EC2".toList, (1 : ℚ)), ("S3".toList, 2)]) "EC2".toList
      = lookupQ (aggFold [("S3".toList, (2 : ℚ)), ("EC2".toList, 1)]) "EC2".toList := by
  refine ⟨List.Perm.swap _ _ _, ?_⟩
  exact aggregate_perm_invariant _ _ (List.Perm.swap _ _ _) "EC2".toList

/-- C9 counterexample: two grouping keys with equal summed cost are NOT
re-ordered into ascending lexical order — `sorted(..., reverse=True)` is
stable, so "B" (first encountered) stays before the lexically smaller
"A" in the serialized table. -/
theorem sortDesc_tiebreak_cex :
    awsCostByService [("B".toList, (5 : ℚ)), ("A".toList, 5)]
      = [("B".toList, (5 : ℚ)), ("A".toList, 5)]
    ∧ 'A' < 'B' ∧ "A".toList ≠ "B".toList := by
  refine ⟨?_, by decide, by decide⟩
  norm_num [awsCostByService, aggFold, insertAdd, sortDesc, insDesc]

/-- C9 (amended): the externally serialized cost table is ordered by
non-increasing summed cost, and whenever two grouping keys have equal
summed cost they appear in dict insertion order (the order the keys were
first encountered), because Python `sorted` is stable — not in ascending
lexical key order. -/
theorem sortDesc_stable_amended (rows : List (Str × ℚ)) (v : ℚ) :
    (awsCostByService rows).Pairwise (fun a b => b.2 ≤ a.2)
    ∧ (awsCostByService rows).filter (fun p => p.2 = v)
        = (aggFold rows).filter (fun p => p.2 = v)
    ∧ (awsCostByService rows).Perm (aggFold rows) :=
  ⟨sortDesc_sorted _, sortDesc_filter _ v, sortDesc_perm _⟩

/-- C8 counterexample: the example rows do NOT surface as EC2 ↦ 10.01.
AWS's `cost_by_service` carries the raw unrounded sum 10.005 (`get_cost`
applies no rounding to per-service values), and GCP's presentation
rounding — Python `round`, half-to-even — sends 10.005 to 10.0. -/
theorem rounding_presentation_cex :
    awsCostByService
        [("EC2".toList, 10004/1000), ("S3".toList, 5), ("EC2".toList, 1/1000)]
      = [("EC2".toList, 10005/1000), ("S3".toList, 5)]
    ∧ gcpCostByService
        [("EC2".toList, 10004/1000), ("S3".toList, 5), ("EC2".toList, 1/1000)]
      = [("EC2".toList, 10), ("S3".toList, 5)]
    ∧ (10005 : ℚ)/1000 ≠ 1001/100 ∧ (10 : ℚ) ≠ 1001/100 := by
  refine ⟨?_, ?_, by norm_num, by norm_num⟩
  · norm_num [awsCostByService, aggFold, insertAdd, sortDesc, insDesc]
  · have hagg : aggFold [("EC2".toList, (10004 : ℚ)/1000), ("S3".toList, 5),
        ("EC2".toList, 1/1000)]
        = [("EC2".toList, 10005/1000), ("S3".toList, 5)] := by
      norm_num [aggFold, insertAdd]
    have h1 : pyRound2 ((10005 : ℚ)/1000) = 10 := by
      norm_num [pyRound2, roundHalfEven]
    have h2 : pyRound2 (5 : ℚ) = 5 := by
      norm_num [pyRound2, roundHalfEven]
    unfold gcpCostByService
    rw [hagg]
    simp [h1, h2]

/-- C8 (amended): accumulation sums raw amounts exactly, with no
intermediate rounding — the accumulated value of a key is the exact sum
of that key's row amounts. GCP rounds each sum to two decimals only at
the presentation boundary (half-to-even); AWS surfaces per-service sums
with no rounding at all. Under exact arithmetic the example rows yield
raw EC2 ↦ 10.005, which AWS reports as 10.005 and GCP as 10.0 — not
10.01. -/
theorem rounding_presentation_amended (rows : List (Str × ℚ)) (k : Str)
    (h : k ∈ rows.map Prod.fst) :
    lookupQ (aggFold rows) k = some (keySum rows k)
    ∧ lookupQ (gcpCostByService rows) k = some (pyRound2 (keySum rows k))
    ∧ (k, keySum rows k) ∈ awsCostByService rows := by
  have h1 : lookupQ (aggFold rows) k = some (keySum rows k) := by
    rw [aggFold_lookup, if_pos h]
  refine ⟨h1, ?_, ?_⟩
  · unfold gcpCostByService
    rw [lookupQ_map_val, h1]
    rfl
  · exact (sortDesc_perm (aggFold rows)).mem_iff.mpr (lookupQ_mem _ _ _ h1)

theorem rounding_presentation_amended_witness :
    ("EC2".toList ∈
      ([("EC2".toList, (10004 : ℚ)/1000), ("S3".toList, 5),
        ("EC2".toList, 1/1000)].map Prod.fst))
    ∧ lookupQ (aggFold [("EC2".toList, (10004 : ℚ)/1000), ("S3".toList, 5),
          ("EC2".toList, 1/1000)]) "EC2".toList
      = some (keySum [("EC2".toList, (10004 : ℚ)/1000), ("S3".toList, 5),
          ("EC2".toList, 1/1000)] "EC2".toList) := by
  refine ⟨by decide, ?_⟩
  exact (rounding_presentation_amended
    [("EC2".toList, (10004 : ℚ)/1000), ("S3".toList, 5), ("EC2".toList, 1/1000)]
    "EC2".toList (by decide)).1

/-- C3 counterexample: errors DO raise past public operation boundaries.
AWS `get_cost` has no `try/except`: with a valid session, a malformed
`start_date_iso` raises the strptime `ValueError` to the caller; with a
failed session acquisition it raises `AttributeError` from
`None.client(...)`. `run_gcp_finops_audit` re-raises a non-`HttpError`
exception from its VM listing. None of these return an error dict. -/
theorem publicBoundary_raises_cex :
    (awsGetCost ⟨⟨2024, 6, 15⟩, .ok "123456789012".toList, .ok [], .ok []⟩
        "default".toList none (some "not-a-date".toList)
        (some "2024-01-02".toList) none none).isOk = false
    ∧ (awsGetCost ⟨⟨2024, 6, 15⟩, .error "NoCredentialsError".toList, .ok [], .ok []⟩
        "default".toList (some 7) none none none none).isOk = false
    ∧ (run_gcp_finops_audit "proj".toList
        (.otherExc "RefreshError: bad credentials".toList)
        (.ok []) (.ok [])).isOk = false := by
  refine ⟨by decide, by decide, by decide⟩

/-- C3 (amended): most of the core embeds its errors — the GCP cost
breakdown catches every exception (returning the message in the error
slot, never raising), `get_boto3_session` returns `(None, None, str(e))`
on credential failure, and the audit helpers embed `HttpError`s — but
the guarantee is not universal: AWS `get_cost`/`run_finops_audit`
propagate malformed-date and failed-session exceptions, and the GCP
audit helpers re-raise exceptions that are not `HttpError`s. -/
theorem publicBoundary_embedded_errors (today : Date) (project : Str)
    (trd : Option Int) (sIso eIso : Option Str) (rwise : Bool) (m m2 : Str)
    (st : Date × Date) (col : List GcpInstance) :
    (resolveDates today trd sIso eIso = .ok st →
      get_gcp_cost today project trd sIso eIso rwise (.exc m) = (none, m))
    ∧ (∀ query, resolveDates today trd sIso eIso = .error m2 →
        get_gcp_cost today project trd sIso eIso rwise query = (none, m2))
    ∧ get_boto3_session (.error m) = (none, none, some m)
    ∧ gcp_get_budget_data (.httpError m) = .ok ([], m)
    ∧ get_stopped_vms (.httpError col m) = .ok
        ((col.filter (fun i => i.status = "TERMINATED".toList)).map (fun i =>
          (⟨i.id, i.name, i.zone, lastSlashComponent i.machineType,
            i.creationTimestamp, i.tags⟩ : StoppedVmItem)), [m]) := by
  refine ⟨?_, ?_, rfl, rfl, rfl⟩
  · intro hres
    obtain ⟨ds, de⟩ := st
    unfold get_gcp_cost get_gcp_cost_breakdown
    rw [hres]
  · intro query hres
    unfold get_gcp_cost get_gcp_cost_breakdown
    rw [hres]

theorem publicBoundary_embedded_errors_witness :
    (resolveDates ⟨2024, 6, 15⟩ none none none
      = .ok (⟨2024, 6, 1⟩, ⟨2024, 6, 15⟩))
    ∧ get_gcp_cost ⟨2024, 6, 15⟩ "proj".toList none none none false
        (.exc "ServiceUnavailable".toList)
      = (none, "ServiceUnavailable".toList) := by
  refine ⟨by decide, ?_⟩
  exact (publicBoundary_embedded_errors ⟨2024, 6, 15⟩ "proj".toList none none none
    false "ServiceUnavailable".toList "x".toList
    (⟨2024, 6, 1⟩, ⟨2024, 6, 15⟩) []).1 (by decide)

/-- C4: when the BigQuery billing export table is missing (`NotFound`),
the GCP cost breakdown reports NO error: for any project and any
successfully resolved window it returns an empty error string together
with the hard-coded mock data — Compute Engine 102.5 and Cloud Storage
21.8 USD, total_cost 124.3 — plus a mock-data note, instead of surfacing
the missing-table condition as an error. -/
theorem gcp_notFound_mock_fallback (today : Date) (project : Str)
    (trd : Option Int) (sIso eIso : Option Str) (ds de : Date)
    (hres : resolveDates today trd sIso eIso = .ok (ds, de)) :
    get_gcp_cost_breakdown today project trd sIso eIso false .notFound
      = (some { projectId := project, startDate := ds, endDate := de,
                totalCost := 1243/10, currency := "USD".toList,
                costByService := some [("Compute Engine".toList, 1025/10),
                                       ("Cloud Storage".toList, 218/10)],
                costByRegion := none,
                note := some "Returned mock service-wise data as no billing export was found.".toList },
         [])
    ∧ (get_gcp_cost_breakdown today project trd sIso eIso true .notFound).2 = []
    ∧ (get_gcp_cost_breakdown today project trd sIso eIso true .notFound).1.map
        (fun r => r.totalCost) = some (1243/10) := by
  have htotal : pyRound2 ((gcpMockServices.map (fun i => i.cost)).sum) = 1243/10 := by
    norm_num [gcpMockServices, pyRound2, roundHalfEven]
  have hsvc : aggFold (gcpMockServices.map (fun i => (i.service, i.cost)))
      = [("Compute Engine".toList, 1025/10), ("Cloud Storage".toList, 218/10)] := by
    norm_num [gcpMockServices, aggFold, insertAdd]
  refine ⟨?_, ?_, ?_⟩
  · unfold get_gcp_cost_breakdown
    rw [hres]
    dsimp only
    rw [htotal, hsvc]
    simp
  · unfold get_gcp_cost_breakdown
    rw [hres]
    dsimp only
    simp
  · unfold get_gcp_cost_breakdown
    rw [hres]
    dsimp only
    rw [htotal]
    rfl

theorem gcp_notFound_mock_fallback_witness :
    (resolveDates ⟨2024, 6, 15⟩ (some 7) none none
      = .ok (⟨2024, 6, 9⟩, ⟨2024, 6, 15⟩))
    ∧ get_gcp_cost_breakdown ⟨2024, 6, 15⟩ "my-proj".toList (some 7) none none
        false .notFound
      = (some { projectId := "my-proj".toList, startDate := ⟨2024, 6, 9⟩,
                endDate := ⟨2024, 6, 15⟩,
                totalCost := 1243/10, currency := "USD".toList,
                costByService := some [("Compute Engine".toList, 1025/10),
                                       ("Cloud Storage".toList, 218/10)],
                costByRegion := none,
                note := some "Returned mock service-wise data as no billing export was found.".toList },
         []) := by
  refine ⟨by decide, ?_⟩
  exact (gcp_notFound_mock_fallback ⟨2024, 6, 15⟩ "my-proj".toList (some 7) none none
    ⟨2024, 6, 9⟩ ⟨2024, 6, 15⟩ (by decide)).1
